import Mathlib

/-!
Verification development for the Orchestrator engine
(`orchestrator_core.py` and the scheduling parts of `api_server.py`).

The Python code is shallowly embedded: the engine state (tasks, agents,
signals, project context, execution log) becomes an explicit record and
every mutating method becomes a state-passing function.  Python dict
values that flow through task outputs and signal payloads are modelled
by the inductive `PyVal`, together with `pyStr`, a model of Python
`str()` on such values, which the engine really uses (the decision-point
check in `_execute_task` is a substring test on `str(task.output)`).
Fresh `uuid4` identifiers are modelled by a monotone counter `nextId`;
`datetime` timestamps and float `performance_score` bookkeeping carry no
logic and are omitted.
-/

namespace Orchestrator

/-- Agent categories, from `AgentType` in `orchestrator_core.py`. -/
inductive AgentType
  | analyst
  | implementer
  | validator
  | integrator
  | creative
  | reasoner
deriving DecidableEq

/-- Task execution states, from `TaskStatus` in `orchestrator_core.py`. -/
inductive TaskStatus
  | pending
  | assigned
  | inProgress
  | review
  | completed
  | blocked
deriving DecidableEq

/-- Signal categories, from `SignalType` in `orchestrator_core.py`. -/
inductive SignalType
  | requirement
  | decisionNeeded
  | innovationDetected
  | qualityIssue
  | integrationReady
  | deploymentSignal
deriving DecidableEq

/-- The `.value` string of an agent category, as the Python enum declares it. -/
def agentTypeValue : AgentType → String
  | AgentType.analyst => "analyst"
  | AgentType.implementer => "implementer"
  | AgentType.validator => "validator"
  | AgentType.integrator => "integrator"
  | AgentType.creative => "creative"
  | AgentType.reasoner => "reasoner"

/-- Python values that appear in task outputs and signal payloads. -/
inductive PyVal
  | str (s : String)
  | bool (b : Bool)
  | int (n : Int)
  | list (xs : List PyVal)
  | dict (entries : List (String × PyVal))
  | pyNone

/-- A single-quote character, written by code point to keep string literals plain. -/
def sq : String := String.singleton (Char.ofNat 39)

mutual

/-- Model of Python `str()` on a `PyVal` (the engine applies `str` to a task
output, which is `None` or a dict, so dict/list entries render with `repr`,
i.e. strings carry quotes). -/
def pyStr : PyVal → String
  | PyVal.str s => sq ++ s ++ sq
  | PyVal.bool b => if b then "True" else "False"
  | PyVal.int n => toString n
  | PyVal.list xs => "[" ++ pyStrItems xs ++ "]"
  | PyVal.dict es => "\x7b" ++ pyStrEntries es ++ "\x7d"
  | PyVal.pyNone => "None"

/-- Comma-separated rendering of list items, as Python prints a list. -/
def pyStrItems : List PyVal → String
  | [] => ""
  | [x] => pyStr x
  | x :: y :: xs => pyStr x ++ ", " ++ pyStrItems (y :: xs)

/-- Comma-separated rendering of dict entries, as Python prints a dict. -/
def pyStrEntries : List (String × PyVal) → String
  | [] => ""
  | [(k, v)] => sq ++ k ++ sq ++ ": " ++ pyStr v
  | (k, v) :: e :: es => sq ++ k ++ sq ++ ": " ++ pyStr v ++ ", " ++ pyStrEntries (e :: es)

end

/-- Python `dict.get(key, default)` on a modelled dict. -/
def dictGet (es : List (String × PyVal)) (key : String) (dflt : PyVal) : PyVal :=
  match es.find? (fun e => e.1 == key) with
  | Option.some e => e.2
  | Option.none => dflt

/-- Whether a dict declares a given key (`key in d` in Python). -/
def hasKey (es : List (String × PyVal)) (key : String) : Bool :=
  es.any (fun e => e.1 == key)

/-- Whether `pat` is a prefix of `l`, on character lists. -/
def leadsWith : List Char → List Char → Bool
  | [], _ => true
  | _ :: _, [] => false
  | a :: as, b :: bs => a == b && leadsWith as bs

/-- Whether `pat` occurs as a contiguous sublist of `l`. -/
def occursIn (pat : List Char) : List Char → Bool
  | [] => pat.isEmpty
  | c :: rest => leadsWith pat (c :: rest) || occursIn pat rest

/-- Python `needle in haystack` on strings: contiguous substring containment. -/
def strOccurs (needle haystack : String) : Bool :=
  occursIn needle.data haystack.data

/-- Work unit, from the `Task` dataclass (`created_at` / `completed_at`
timestamps omitted; `uuid4` ids modelled as naturals drawn from a counter). -/
structure Task where
  id : Nat
  description : String
  agentType : AgentType
  status : TaskStatus
  priority : Int
  dependencies : List Nat
  output : Option (List (String × PyVal))
  assignedTo : Option String

/-- Specialized agent, from the `Agent` dataclass (float
`performance_score` is informational only and omitted). -/
structure Agent where
  id : String
  name : String
  type : AgentType
  capabilities : List String
  status : String
  currentTask : Option Nat
  specializations : List String

/-- System signal, from the `Signal` dataclass (timestamp omitted;
`confidence` kept as an exact rational). -/
structure Signal where
  id : Nat
  type : SignalType
  source : String
  data : List (String × PyVal)
  confidence : Rat

/-- Project state record, from the `ProjectContext` dataclass
(`patterns` / `metrics` maps and timestamps omitted — never read by the
engine; `decisions` maps a signal id to the recorded decision payload). -/
structure ProjectContext where
  projectId : String
  name : String
  description : String
  requirements : List String
  decisions : List (Nat × PyVal)

/-- Whole-engine state: the mutable fields of `OrchestratorCore`.
`tasks` is the insertion-ordered id-keyed map `self.tasks`; `agents` the
insertion-ordered roster `self.agents`; `nextId` models the `uuid4`
fresh-identifier supply. -/
structure OrchState where
  projectId : String
  tasks : List Task
  agents : List Agent
  signals : List Signal
  context : Option ProjectContext
  executionLog : List (String × List (String × PyVal))
  nextId : Nat

/-- The fixed five-agent roster built by `_initialize_agents`, in Python
dict insertion order (which is the order `_assign_task` scans). -/
def initialAgents : List Agent :=
  [ { id := "claude_analyst", name := "Claude Strategic Analyst",
      type := AgentType.analyst,
      capabilities := ["architecture_design", "requirement_analysis",
                       "strategic_planning", "risk_assessment"],
      status := "ready", currentTask := Option.none,
      specializations := ["system_design", "scalability", "best_practices"] },
    { id := "codex_impl", name := "Codex Implementation Engine",
      type := AgentType.implementer,
      capabilities := ["code_generation", "api_development",
                       "database_design", "optimization"],
      status := "ready", currentTask := Option.none,
      specializations := ["full_stack", "microservices", "cloud_native"] },
    { id := "claude2_validator", name := "Claude2 Quality Validator",
      type := AgentType.validator,
      capabilities := ["code_review", "test_generation",
                       "security_audit", "performance_testing"],
      status := "ready", currentTask := Option.none,
      specializations := ["quality_assurance", "security", "compliance"] },
    { id := "ide_integrator", name := "IDE Integration Suite",
      type := AgentType.integrator,
      capabilities := ["deployment", "monitoring",
                       "debugging", "environment_setup"],
      status := "ready", currentTask := Option.none,
      specializations := ["ci_cd", "containerization", "observability"] },
    { id := "deepseek_reasoner", name := "DeepSeek Advanced Reasoner",
      type := AgentType.reasoner,
      capabilities := ["deep_reasoning", "algorithm_analysis",
                       "performance_optimization", "security_analysis",
                       "architecture_review"],
      status := "ready", currentTask := Option.none,
      specializations := ["complexity_analysis", "bottleneck_detection",
                          "optimization"] } ]

/-- Engine state directly after `__init__` (workspace directory creation
is file I/O and out of scope). -/
def initialState (projectId : String) : OrchState :=
  { projectId := projectId, tasks := [], agents := initialAgents,
    signals := [], context := Option.none, executionLog := [], nextId := 0 }

/-- Python `str.lower` on one character (ASCII range, which covers every
string the engine lowercases and compares). -/
def lowerChar (c : Char) : Char :=
  if 65 ≤ c.toNat && c.toNat ≤ 90 then Char.ofNat (c.toNat + 32) else c

/-- Python `str.lower` on a string (ASCII case mapping). -/
def lowerStr (s : String) : String :=
  ⟨s.data.map lowerChar⟩

/-- The fixed keyword list `_decompose_requirement` scans for. -/
def deepKeywords : List String :=
  ["optimize", "performance", "algorithm", "complex", "architecture",
   "scale", "security", "analyze", "efficient", "bottleneck"]

/-- The `needs_deep_reasoning` test of `_decompose_requirement`:
case-insensitive substring match of any fixed keyword. -/
def needsDeepReasoning (requirement : String) : Bool :=
  deepKeywords.any (fun k => strOccurs k (lowerStr requirement))

/-- Embedding of `_decompose_requirement`.  Fresh `uuid4` ids become
`base`, `base+1`, …; each appended task's Python dependency expressions
(`tasks[0].id`, `tasks[-1].id`) are written out with the task records
they refer to. -/
def decomposeFrom (base : Nat) (requirement : String) : List Task :=
  let analysis : Task :=
    { id := base,
      description := "Analyze and architect solution for: " ++ requirement,
      agentType := AgentType.analyst, status := TaskStatus.pending,
      priority := 10, dependencies := [], output := Option.none,
      assignedTo := Option.none }
  if needsDeepReasoning requirement then
    let reason : Task :=
      { id := base + 1,
        description := "Perform deep technical analysis and optimization for: "
          ++ requirement,
        agentType := AgentType.reasoner, status := TaskStatus.pending,
        priority := 9, dependencies := [analysis.id], output := Option.none,
        assignedTo := Option.none }
    let plan : Task :=
      { id := base + 2,
        description := "Create implementation plan for: " ++ requirement,
        agentType := AgentType.analyst, status := TaskStatus.pending,
        priority := 8, dependencies := [reason.id], output := Option.none,
        assignedTo := Option.none }
    let impl : Task :=
      { id := base + 3,
        description := "Generate code implementation for: " ++ requirement,
        agentType := AgentType.implementer, status := TaskStatus.pending,
        priority := 7, dependencies := [plan.id], output := Option.none,
        assignedTo := Option.none }
    let valid : Task :=
      { id := base + 4,
        description := "Validate and test implementation for: " ++ requirement,
        agentType := AgentType.validator, status := TaskStatus.pending,
        priority := 6, dependencies := [impl.id], output := Option.none,
        assignedTo := Option.none }
    let opt : Task :=
      { id := base + 5,
        description := "Optimize and refine implementation based on analysis: "
          ++ requirement,
        agentType := AgentType.reasoner, status := TaskStatus.pending,
        priority := 5, dependencies := [valid.id], output := Option.none,
        assignedTo := Option.none }
    [analysis, reason, plan, impl, valid, opt]
  else
    let plan : Task :=
      { id := base + 1,
        description := "Create implementation plan for: " ++ requirement,
        agentType := AgentType.analyst, status := TaskStatus.pending,
        priority := 8, dependencies := [analysis.id], output := Option.none,
        assignedTo := Option.none }
    let impl : Task :=
      { id := base + 2,
        description := "Generate code implementation for: " ++ requirement,
        agentType := AgentType.implementer, status := TaskStatus.pending,
        priority := 7, dependencies := [plan.id], output := Option.none,
        assignedTo := Option.none }
    let valid : Task :=
      { id := base + 3,
        description := "Validate and test implementation for: " ++ requirement,
        agentType := AgentType.validator, status := TaskStatus.pending,
        priority := 6, dependencies := [impl.id], output := Option.none,
        assignedTo := Option.none }
    [analysis, plan, impl, valid]

/-- Lookup `self.tasks[id]` (`self.tasks.get(id)` when it may miss). -/
def findTask (st : OrchState) (taskId : Nat) : Option Task :=
  st.tasks.find? (fun t => t.id == taskId)

/-- Embedding of `_dependencies_met`: every listed dependency id must
resolve to a task in the map whose status is completed. -/
def dependenciesMet (st : OrchState) (task : Task) : Bool :=
  task.dependencies.all (fun depId =>
    match findTask st depId with
    | Option.some dep => dep.status == TaskStatus.completed
    | Option.none => false)

/-- First ready agent of a given category, in roster order — the
selection loop inside `_assign_task`. -/
def findReadyAgent : List Agent → AgentType → Option Agent
  | [], _ => Option.none
  | a :: rest, ty =>
      if a.type == ty && a.status == "ready" then Option.some a
      else findReadyAgent rest ty

/-- Embedding of `_assign_task`: if the task's dependencies are met and a
ready agent of the matching category exists, mark the task assigned and
the agent working (the dispatched `_execute_task` coroutine is modelled
by the separate `startExec` / `completeExec` steps). -/
def assignTask (st : OrchState) (taskId : Nat) : OrchState :=
  match findTask st taskId with
  | Option.none => st
  | Option.some task =>
    if dependenciesMet st task then
      match findReadyAgent st.agents task.agentType with
      | Option.none => st
      | Option.some agent =>
        { st with
          tasks := st.tasks.map (fun t =>
            if t.id == taskId then
              { t with assignedTo := Option.some agent.id,
                       status := TaskStatus.assigned }
            else t),
          agents := st.agents.map (fun a =>
            if a.id == agent.id then
              { a with status := "working", currentTask := Option.some taskId }
            else a) }
    else st

/-- Embedding of `_check_pending_tasks`: try to assign every task that is
still pending, in map order. -/
def checkPendingTasks (st : OrchState) : OrchState :=
  st.tasks.foldl (fun s t =>
    match findTask s t.id with
    | Option.some cur =>
        if cur.status == TaskStatus.pending then assignTask s t.id else s
    | Option.none => s) st

/-- Outcome of the awaited `bridge.execute_task` call inside
`_execute_task`: the call either raises (caught by the `except` arm) or
returns a result dict.  The bridge itself is an external collaborator. -/
inductive BridgeOutcome
  | raises
  | returns (result : List (String × PyVal))

/-- The argument dict `_execute_task` passes to `bridge.execute_task`
(lines 365–370 of `orchestrator_core.py`): task id, description,
priority and agent category — and nothing else. -/
def bridgePayload (task : Task) (agent : Agent) : List (String × PyVal) :=
  [("id", PyVal.int (Int.ofNat task.id)),
   ("description", PyVal.str task.description),
   ("priority", PyVal.int task.priority),
   ("agent_type", PyVal.str (agentTypeValue agent.type))]

/-- The per-category simulated fallback outputs of `_execute_task`
(lines 380–439).  The `elif` chain covers analyst / implementer /
validator / reasoner only; for integrator and creative agents the output
is left as it was (`Option.none` here). -/
def simulatedOutput (ty : AgentType) (descr : String) :
    Option (List (String × PyVal)) :=
  match ty with
  | AgentType.analyst =>
      if strOccurs "hello world" (lowerStr descr) || strOccurs "webpage" (lowerStr descr) then
        Option.some
          [("architecture", PyVal.str "static_website"),
           ("components", PyVal.list [PyVal.str "html", PyVal.str "css"]),
           ("technology", PyVal.str "HTML/CSS"),
           ("complexity", PyVal.str "simple")]
      else
        Option.some
          [("architecture", PyVal.str "microservices"),
           ("components", PyVal.list [PyVal.str "api", PyVal.str "database",
                                      PyVal.str "cache", PyVal.str "queue"]),
           ("decisions_needed", PyVal.list [PyVal.str "database_choice",
                                            PyVal.str "deployment_platform"])]
  | AgentType.implementer =>
      Option.some
        [("code_generated", PyVal.bool true),
         ("files", PyVal.list [PyVal.str "app.py", PyVal.str "models.py",
                               PyVal.str "api.py"]),
         ("lines_of_code", PyVal.int 500)]
  | AgentType.validator =>
      Option.some
        [("tests_passed", PyVal.bool true),
         ("coverage", PyVal.int 85),
         ("issues_found", PyVal.int 2),
         ("security_score", PyVal.str "A"),
         ("execution_metadata", PyVal.dict
           [("runnable", PyVal.bool true),
            ("execution_type", PyVal.str "web_server"),
            ("command", PyVal.str "python3 hello_world.py"),
            ("port", PyVal.int 8000),
            ("url", PyVal.str "http://localhost:8000"),
            ("framework", PyVal.str "FastAPI"),
            ("startup_time", PyVal.int 2)])]
  | AgentType.reasoner =>
      Option.some
        [("analysis_complete", PyVal.bool true),
         ("optimizations", PyVal.list
           [PyVal.str "Use connection pooling for database",
            PyVal.str "Implement caching layer",
            PyVal.str "Add request rate limiting"]),
         ("performance_metrics", PyVal.dict
           [("time_complexity", PyVal.str "O(n log n)"),
            ("space_complexity", PyVal.str "O(n)"),
            ("bottlenecks", PyVal.list [PyVal.str "database queries",
                                        PyVal.str "external API calls"])]),
         ("security_recommendations", PyVal.list
           [PyVal.str "Add input validation",
            PyVal.str "Implement CSRF protection",
            PyVal.str "Use prepared statements"])]
  | AgentType.integrator => Option.none
  | AgentType.creative => Option.none

/-- Python truthiness of a task output: `None` and the empty dict are
falsy, a non-empty dict is truthy (`if not task.output`). -/
def truthyOutput : Option (List (String × PyVal)) → Bool
  | Option.none => false
  | Option.some es => !es.isEmpty

/-- The output `_execute_task` ends up storing: the bridge result if the
call returned one (`None` if it raised), replaced by the simulated
fallback only when falsy and the `elif` chain covers the agent type. -/
def resolveOutput (ty : AgentType) (descr : String) (outcome : BridgeOutcome) :
    Option (List (String × PyVal)) :=
  let raw : Option (List (String × PyVal)) :=
    match outcome with
    | BridgeOutcome.raises => Option.none
    | BridgeOutcome.returns r => Option.some r
  if truthyOutput raw then raw
  else
    match simulatedOutput ty descr with
    | Option.some sim => Option.some sim
    | Option.none => raw

/-- Python `str(task.output)`: `"None"` for `None`, dict rendering
otherwise — the exact value the decision-point check inspects. -/
def strOfOutput : Option (List (String × PyVal)) → String
  | Option.none => "None"
  | Option.some es => pyStr (PyVal.dict es)

/-- Whether an output dict declares the `decisions_needed` field (the
spec-side condition for a decision checkpoint). -/
def declaresDecisions (out : Option (List (String × PyVal))) : Bool :=
  match out with
  | Option.some es => hasKey es "decisions_needed"
  | Option.none => false

/-- The decision-point condition `_execute_task` actually evaluates:
`"decisions_needed" in str(task.output)` — a substring test on the
printed output, not a key-presence test. -/
def decisionCheck (out : Option (List (String × PyVal))) : Bool :=
  strOccurs "decisions_needed" (strOfOutput out)

/-- The payload of the signal `_create_decision_signal` appends:
the task id, the `decisions_needed` items (default `[]`), and the full
output as context. -/
def decisionSignalData (task : Task) (out : Option (List (String × PyVal))) :
    List (String × PyVal) :=
  let es := match out with
    | Option.some es => es
    | Option.none => []
  [("task_id", PyVal.int (Int.ofNat task.id)),
   ("decisions", dictGet es "decisions_needed" (PyVal.list [])),
   ("context", PyVal.dict es)]

/-- The signal `_create_decision_signal` builds (source is the assigned
agent id; confidence defaults to 1). -/
def decisionSignal (sigId : Nat) (task : Task)
    (out : Option (List (String × PyVal))) : Signal :=
  { id := sigId, type := SignalType.decisionNeeded,
    source := match task.assignedTo with
      | Option.some a => a
      | Option.none => "",
    data := decisionSignalData task out, confidence := 1 }

/-- First statement of `_execute_task`: the task becomes in-progress. -/
def startExec (st : OrchState) (taskId : Nat) : OrchState :=
  { st with tasks := st.tasks.map (fun t =>
      if t.id == taskId then { t with status := TaskStatus.inProgress } else t) }

/-- Embedding of the remainder of `_execute_task` after the bridge call
resolves with `outcome`: store the (possibly fallback) output, mark the
task completed, release the agent, and append a `decision_needed` signal
exactly when `str(output)` contains `"decisions_needed"`.  The cascading
`_check_pending_tasks` call is modelled as separate `Step.checkPending`
steps; the implementer save-to-workspace branch is file I/O with no
engine-state effect. -/
def completeExec (st : OrchState) (taskId : Nat) (outcome : BridgeOutcome) :
    OrchState :=
  match findTask st taskId with
  | Option.none => st
  | Option.some task =>
    match task.assignedTo with
    | Option.none => st
    | Option.some agentId =>
      match st.agents.find? (fun a => a.id == agentId) with
      | Option.none => st
      | Option.some agent =>
        let out := resolveOutput agent.type task.description outcome
        let st1 :=
          { st with
            tasks := st.tasks.map (fun t =>
              if t.id == taskId then
                { t with output := out, status := TaskStatus.completed }
              else t),
            agents := st.agents.map (fun a =>
              if a.id == agentId then
                { a with status := "ready", currentTask := Option.none }
              else a),
            executionLog := st.executionLog ++
              [("task_completed",
                [("task_id", PyVal.int (Int.ofNat taskId)),
                 ("agent_id", PyVal.str agentId)])] }
        if decisionCheck out then
          { st1 with
            signals := st1.signals ++ [decisionSignal st1.nextId task out],
            nextId := st1.nextId + 1 }
        else st1

/-- Embedding of `process_requirement`: append the requirement signal,
decompose, then for each produced task insert it into the map and
immediately try to assign it (the Python loop interleaves insertion and
assignment in exactly this order). -/
def processRequirement (st : OrchState) (requirement : String)
    (priority : Int) : OrchState :=
  let reqId := st.nextId
  let reqSignal : Signal :=
    { id := reqId, type := SignalType.requirement, source := "user",
      data := [("content", PyVal.str requirement),
               ("priority", PyVal.int priority)],
      confidence := 1 }
  let st0 :=
    { st with signals := st.signals ++ [reqSignal], nextId := st.nextId + 1 }
  let newTasks := decomposeFrom st0.nextId requirement
  let st1 := { st0 with nextId := st0.nextId + newTasks.length }
  let st2 := newTasks.foldl
    (fun s t => assignTask { s with tasks := s.tasks ++ [t] } t.id) st1
  { st2 with executionLog := st2.executionLog ++
      [("requirement_processed",
        [("id", PyVal.int (Int.ofNat reqId)),
         ("requirement", PyVal.str requirement),
         ("task_count", PyVal.int (Int.ofNat newTasks.length))])] }

/-- Python dict assignment `decisions[signal_id] = record`: overwrite the
existing entry or append a new one. -/
def setDecision (ds : List (Nat × PyVal)) (k : Nat) (v : PyVal) :
    List (Nat × PyVal) :=
  if ds.any (fun e => e.1 == k) then
    ds.map (fun e => if e.1 == k then (k, v) else e)
  else ds ++ [(k, v)]

/-- Embedding of `make_decision`: an unknown signal id returns `false`
before any mutation; otherwise the context (created lazily on first
decision) records the decision keyed by the signal id, an event is
logged, and `true` is returned.  The signal list itself is untouched. -/
def makeDecision (st : OrchState) (signalId : Nat) (decision : String) :
    Bool × OrchState :=
  match st.signals.find? (fun s => s.id == signalId) with
  | Option.none => (false, st)
  | Option.some signal =>
    let ctx0 : ProjectContext :=
      match st.context with
      | Option.some c => c
      | Option.none =>
          { projectId := st.projectId, name := "Project",
            description := "AI-augmented development",
            requirements := [], decisions := [] }
    let record : PyVal := PyVal.dict
      [("decision", PyVal.str decision),
       ("signal_data", PyVal.dict signal.data)]
    let ctx1 := { ctx0 with decisions := setDecision ctx0.decisions signalId record }
    (true,
     { st with
       context := Option.some ctx1,
       executionLog := st.executionLog ++
         [("decision_made",
           [("signal_id", PyVal.int (Int.ofNat signalId)),
            ("decision", PyVal.str decision)])] })

/-- Number of tasks currently in a given status. -/
def countStatus (st : OrchState) (s : TaskStatus) : Nat :=
  (st.tasks.filter (fun t => t.status == s)).length

/-- Number of `decision_needed` signals in a signal list. -/
def countDecisionSignals (sigs : List Signal) : Nat :=
  (sigs.filter (fun s => s.type == SignalType.decisionNeeded)).length

/-- Embedding of `_calculate_health_score`: baseline 85, minus the
blocked-task ratio times 20, clamped to [0, 100].  (The weight constants
declared at the top of the Python function are never applied.) -/
def healthScore (st : OrchState) : Rat :=
  max 0 (min 100 (85 - (countStatus st TaskStatus.blocked : Rat) /
    ((max st.tasks.length 1 : Nat) : Rat) * 20))

/-- The dict `get_project_status` returns. -/
structure ProjectStatus where
  projectId : String
  healthScore : Rat
  progress : Rat
  activeAgents : Nat
  pendingDecisions : Nat
  totalTasks : Nat
  completedTasks : Nat
  inProgressTasks : Nat
  blockedTasks : Nat

/-- Embedding of `get_project_status`. -/
def getProjectStatus (st : OrchState) : ProjectStatus :=
  let total := st.tasks.length
  let completed := countStatus st TaskStatus.completed
  { projectId := st.projectId,
    healthScore := healthScore st,
    progress := if total > 0 then (completed : Rat) / (total : Rat) * 100 else 0,
    activeAgents := (st.agents.filter (fun a => a.status == "working")).length,
    pendingDecisions := countDecisionSignals st.signals,
    totalTasks := total,
    completedTasks := completed,
    inProgressTasks := countStatus st TaskStatus.inProgress,
    blockedTasks := countStatus st TaskStatus.blocked }

/-- The task filter of `process_requirement_tasks` in `api_server.py`
(line 576): tasks whose description contains the requirement id. -/
def requirementTasks (tasks : List Task) (reqId : String) : List Task :=
  tasks.filter (fun t => strOccurs reqId t.description)

/-- One engine step: the mutating operations of `OrchestratorCore`.
Execution dispatch and completion are separate steps because the bridge
call is the engine's only suspension point. -/
inductive Step : OrchState → OrchState → Prop
  | processReq (st : OrchState) (req : String) (priority : Int) :
      Step st (processRequirement st req priority)
  | assign (st : OrchState) (taskId : Nat) :
      Step st (assignTask st taskId)
  | start (st : OrchState) (taskId : Nat) :
      Step st (startExec st taskId)
  | complete (st : OrchState) (taskId : Nat) (outcome : BridgeOutcome) :
      Step st (completeExec st taskId outcome)
  | checkPending (st : OrchState) :
      Step st (checkPendingTasks st)
  | makeDec (st : OrchState) (signalId : Nat) (decision : String) :
      Step st (makeDecision st signalId decision).2

/-- Chain check continuation: each task depends exactly on the id of the
task immediately before it in the list. -/
def chainFrom (prevId : Nat) : List Task → Bool
  | [] => true
  | t :: rest => t.dependencies == [prevId] && chainFrom t.id rest

/-- A strictly linear dependency chain: the head has no dependencies and
every later task depends exactly on its immediate predecessor. -/
def linearChain : List Task → Bool
  | [] => true
  | t :: rest => t.dependencies == [] && chainFrom t.id rest

/-- A task assigned to the IDE integrator, used as concrete input for
exercising the execution-failure path. -/
def failTask : Task :=
  { id := 0, description := "Deploy generated artifact to staging",
    agentType := AgentType.integrator, status := TaskStatus.assigned,
    priority := 7, dependencies := [], output := Option.none,
    assignedTo := Option.some "ide_integrator" }

/-- Concrete engine state with `failTask` in flight. -/
def failSt : OrchState :=
  { projectId := "p", tasks := [failTask], agents := initialAgents,
    signals := [], context := Option.none, executionLog := [], nextId := 1 }

/-- The roster entry `failTask` is assigned to (the fourth agent of
`initialAgents`). -/
def ideAgent : Agent :=
  { id := "ide_integrator", name := "IDE Integration Suite",
    type := AgentType.integrator,
    capabilities := ["deployment", "monitoring",
                     "debugging", "environment_setup"],
    status := "ready", currentTask := Option.none,
    specializations := ["ci_cd", "containerization", "observability"] }

/-- A task assigned to the implementer, used as concrete input for the
decision-point check. -/
def mentionTask : Task :=
  { id := 0, description := "Generate code implementation for: demo",
    agentType := AgentType.implementer, status := TaskStatus.assigned,
    priority := 7, dependencies := [], output := Option.none,
    assignedTo := Option.some "codex_impl" }

/-- Concrete engine state with `mentionTask` in flight. -/
def mentionSt : OrchState :=
  { projectId := "p", tasks := [mentionTask], agents := initialAgents,
    signals := [], context := Option.none, executionLog := [], nextId := 1 }

/-- The roster entry `mentionTask` is assigned to (the second agent of
`initialAgents`). -/
def codexAgent : Agent :=
  { id := "codex_impl", name := "Codex Implementation Engine",
    type := AgentType.implementer,
    capabilities := ["code_generation", "api_development",
                     "database_design", "optimization"],
    status := "ready", currentTask := Option.none,
    specializations := ["full_stack", "microservices", "cloud_native"] }

/-- A worker result that merely mentions the string `decisions_needed`
inside a value, without declaring the field. -/
def mentionOut : List (String × PyVal) :=
  [("success", PyVal.bool true),
   ("response", PyVal.str "the design doc lists decisions_needed for review")]

/-- A completed analysis task, dependency of `c2PendTask`. -/
def c2DepTask : Task :=
  { id := 0, description := "Analyze and architect solution for: demo",
    agentType := AgentType.analyst, status := TaskStatus.completed,
    priority := 10, dependencies := [], output := Option.none,
    assignedTo := Option.none }

/-- A pending planning task depending on `c2DepTask`. -/
def c2PendTask : Task :=
  { id := 1, description := "Create implementation plan for: demo",
    agentType := AgentType.analyst, status := TaskStatus.pending,
    priority := 8, dependencies := [0], output := Option.none,
    assignedTo := Option.none }

/-- Concrete engine state: one completed task and one pending dependent. -/
def c2St : OrchState :=
  { projectId := "p", tasks := [c2DepTask, c2PendTask], agents := initialAgents,
    signals := [], context := Option.none, executionLog := [], nextId := 2 }

/-- Small task of a chosen status for health-score inputs. -/
def hTask (i : Nat) (s : TaskStatus) : Task :=
  { id := i, description := "t", agentType := AgentType.analyst, status := s,
    priority := 5, dependencies := [], output := Option.none,
    assignedTo := Option.none }

/-- Two-task state with no blocked task. -/
def hSt1 : OrchState :=
  { projectId := "p", tasks := [hTask 0 TaskStatus.pending, hTask 1 TaskStatus.pending],
    agents := initialAgents, signals := [], context := Option.none,
    executionLog := [], nextId := 2 }

/-- Two-task state with one blocked task. -/
def hSt2 : OrchState :=
  { projectId := "p", tasks := [hTask 0 TaskStatus.pending, hTask 1 TaskStatus.blocked],
    agents := initialAgents, signals := [], context := Option.none,
    executionLog := [], nextId := 2 }

/-- The denominator `max(len(tasks), 1)` is at least one. -/
theorem one_le_denom (st : OrchState) :
    (1 : Rat) ≤ ((max st.tasks.length 1 : Nat) : Rat) := by
  exact_mod_cast Nat.one_le_iff_ne_zero.mpr (by omega)

/-- C4: `get_project_status` reports progress `completed / total × 100`
(zero when there are no tasks) and a health score of
`85 − 20 × (blocked / max(total, 1))` clamped to `[0, 100]`. -/
theorem status_formulas (st : OrchState) :
    (getProjectStatus st).progress =
      (if st.tasks.length = 0 then 0
       else (countStatus st TaskStatus.completed : Rat) /
         (st.tasks.length : Rat) * 100) ∧
    (getProjectStatus st).healthScore =
      max 0 (min 100 (85 - 20 * ((countStatus st TaskStatus.blocked : Rat) /
        ((max st.tasks.length 1 : Nat) : Rat)))) := by
  constructor
  · show (if st.tasks.length > 0 then _ else _) = _
    rcases Nat.eq_zero_or_pos st.tasks.length with h | h
    · simp [h]
    · rw [if_pos h, if_neg (Nat.pos_iff_ne_zero.mp h)]
  · show healthScore st = _
    unfold healthScore
    have : (countStatus st TaskStatus.blocked : Rat) /
        ((max st.tasks.length 1 : Nat) : Rat) * 20 =
        20 * ((countStatus st TaskStatus.blocked : Rat) /
        ((max st.tasks.length 1 : Nat) : Rat)) := by ring
    rw [this]

/-- C8: the health score always lies in `[0, 100]`, and with the total
task count held fixed it is monotonically non-increasing in the
blocked-task count. -/
theorem health_bounds_monotone (st1 st2 : OrchState)
    (htot : st1.tasks.length = st2.tasks.length)
    (hblk : countStatus st1 TaskStatus.blocked ≤
      countStatus st2 TaskStatus.blocked) :
    (0 ≤ healthScore st1 ∧ healthScore st1 ≤ 100) ∧
    healthScore st2 ≤ healthScore st1 := by
  refine ⟨⟨le_max_left _ _, max_le (by norm_num) (min_le_left _ _)⟩, ?_⟩
  unfold healthScore
  have hT : (0 : Rat) < ((max st1.tasks.length 1 : Nat) : Rat) :=
    lt_of_lt_of_le one_pos (one_le_denom st1)
  have hfrac : (countStatus st1 TaskStatus.blocked : Rat) /
      ((max st1.tasks.length 1 : Nat) : Rat) ≤
      (countStatus st2 TaskStatus.blocked : Rat) /
      ((max st2.tasks.length 1 : Nat) : Rat) := by
    rw [← htot]
    exact div_le_div_of_nonneg_right (by exact_mod_cast hblk) hT.le
  exact max_le_max (le_refl 0)
    (min_le_min (le_refl 100)
      (sub_le_sub_left (by nlinarith [hfrac]) 85))

/-- C10: the health score actually attained always lies in `[65, 85]`:
the blocked ratio is at most one, so the subtraction removes at most 20
from the baseline 85 and the clamp bounds are never reached. -/
theorem health_band (st : OrchState) :
    65 ≤ healthScore st ∧ healthScore st ≤ 85 := by
  unfold healthScore
  have hb : countStatus st TaskStatus.blocked ≤ st.tasks.length :=
    List.length_filter_le _ _
  have hT : (1 : Rat) ≤ ((max st.tasks.length 1 : Nat) : Rat) := one_le_denom st
  have hr0 : (0 : Rat) ≤ (countStatus st TaskStatus.blocked : Rat) /
      ((max st.tasks.length 1 : Nat) : Rat) := by positivity
  have hr1 : (countStatus st TaskStatus.blocked : Rat) /
      ((max st.tasks.length 1 : Nat) : Rat) ≤ 1 := by
    rw [div_le_one (lt_of_lt_of_le one_pos hT)]
    exact_mod_cast le_trans hb (le_max_left _ _)
  have hmin : min (100 : Rat) (85 - (countStatus st TaskStatus.blocked : Rat) /
      ((max st.tasks.length 1 : Nat) : Rat) * 20) =
      85 - (countStatus st TaskStatus.blocked : Rat) /
      ((max st.tasks.length 1 : Nat) : Rat) * 20 :=
    min_eq_right (by nlinarith)
  rw [hmin, max_eq_right (by nlinarith)]
  constructor <;> nlinarith

/-- C8 witness: concrete two-task states, zero versus one blocked task. -/
theorem health_bounds_monotone_witness :
    (0 ≤ healthScore hSt1 ∧ healthScore hSt1 ≤ 100) ∧
    healthScore hSt2 ≤ healthScore hSt1 :=
  health_bounds_monotone hSt1 hSt2 rfl (by decide)

/-- C7: submitting a decision for a signal id that matches no recorded
signal returns failure and leaves the whole engine state — signal log,
context, tasks, agents, execution log — untouched. -/
theorem unknown_decision_noop (st : OrchState) (sid : Nat) (d : String)
    (h : ∀ s ∈ st.signals, s.id ≠ sid) :
    makeDecision st sid d = (false, st) := by
  unfold makeDecision
  have hfind : st.signals.find? (fun s => s.id == sid) = Option.none := by
    apply List.find?_eq_none.mpr
    intro s hs
    simp [h s hs]
  rw [hfind]

/-- C7 witness: the fresh engine has no signals, so any id is unknown. -/
theorem unknown_decision_noop_witness :
    makeDecision (initialState "proj") 7 "use postgres" =
      (false, initialState "proj") :=
  unknown_decision_noop (initialState "proj") 7 "use postgres"
    (by intro s hs; simp [initialState] at hs)

/-- C3: for every requirement the decomposer yields a strictly linear
dependency chain of 4 or 6 freshly-identified tasks — analysis
(priority 10, no dependencies) first, then, exactly when the requirement
contains a deep-reasoning keyword case-insensitively, a reasoner task
(priority 9); then planning (8), implementation (7), validation (6),
and, again exactly in the keyword case, a post-validation optimization
task (priority 5) — each later task depending on exactly the
immediately preceding task. -/
theorem decompose_linear_chain (base : Nat) (req : String) :
    ((decomposeFrom base req).map (fun t => (t.agentType, t.priority)) =
      if needsDeepReasoning req then
        [(AgentType.analyst, 10), (AgentType.reasoner, 9),
         (AgentType.analyst, 8), (AgentType.implementer, 7),
         (AgentType.validator, 6), (AgentType.reasoner, 5)]
      else
        [(AgentType.analyst, 10), (AgentType.analyst, 8),
         (AgentType.implementer, 7), (AgentType.validator, 6)]) ∧
    linearChain (decomposeFrom base req) = true ∧
    ((decomposeFrom base req).map Task.id).Nodup ∧
    ((decomposeFrom base req).length = 4 ∨
     (decomposeFrom base req).length = 6) := by
  by_cases h : needsDeepReasoning req <;>
    simp [decomposeFrom, h, linearChain, chainFrom]

/-- Unfolding of a passed `_dependencies_met` check: every dependency id
resolves to a completed task. -/
theorem dependenciesMet_spec (st : OrchState) (task : Task)
    (h : dependenciesMet st task = true) :
    ∀ d ∈ task.dependencies, ∃ dt, findTask st d = Option.some dt ∧
      dt.status = TaskStatus.completed := by
  intro d hd
  have hall := (List.all_eq_true.mp h) d hd
  cases hfind : findTask st d with
  | none => rw [hfind] at hall; exact absurd hall (by simp)
  | some dt =>
      rw [hfind] at hall
      exact ⟨dt, rfl, by simpa using hall⟩

/-- C2: the only pending-to-assigned transition in the engine is
`_assign_task`, and it moves a pending task to assigned only when every
id in its dependency list resolves to a task in the map whose status is
completed; in particular a task with an unresolvable dependency id is
never assigned.  (`_execute_task`, the only writer of in-progress, is
dispatched strictly after this assignment.) -/
theorem assign_requires_completed_deps (st : OrchState) (taskId : Nat)
    (task task2 : Task)
    (hfind : findTask st taskId = Option.some task)
    (hpend : task.status = TaskStatus.pending)
    (hfind2 : findTask (assignTask st taskId) taskId = Option.some task2)
    (hstat : task2.status = TaskStatus.assigned ∨
      task2.status = TaskStatus.inProgress) :
    ∀ d ∈ task.dependencies, ∃ dt, findTask st d = Option.some dt ∧
      dt.status = TaskStatus.completed := by
  by_cases hdm : dependenciesMet st task
  · exact dependenciesMet_spec st task hdm
  · have hsame : assignTask st taskId = st := by
      simp [assignTask, hfind, hdm]
    rw [hsame, hfind] at hfind2
    cases hfind2
    rw [hpend] at hstat
    rcases hstat with h | h <;> exact absurd h (by simp)

/-- C2 witness: in `c2St` the pending planning task's sole dependency is
the completed analysis task, and `_assign_task` does assign it. -/
theorem assign_requires_completed_deps_witness :
    ∃ dt, findTask c2St 0 = Option.some dt ∧
      dt.status = TaskStatus.completed :=
  assign_requires_completed_deps c2St 1 c2PendTask
    { c2PendTask with status := TaskStatus.assigned,
                      assignedTo := Option.some "claude_analyst" }
    rfl rfl rfl (Or.inl rfl) 0 (by decide)

/-- Updating tasks through an id-preserving map commutes with lookup. -/
theorem find?_map_preserving_id (l : List Task) (g : Task → Task)
    (hg : ∀ t, (g t).id = t.id) (tid : Nat) :
    (l.map g).find? (fun t => t.id == tid) =
      (l.find? (fun t => t.id == tid)).map g := by
  rw [List.find?_map]
  have hp : ((fun t => t.id == tid) ∘ g) = (fun t : Task => t.id == tid) := by
    funext t
    simp [Function.comp, hg]
  rw [hp]

/-- C1 (amended): whatever the bridge outcome — an exception or any
result, including one with `success = false` — `_execute_task` always
marks the task completed (with the raw result, the simulated fallback,
or no output at all); it never marks a task blocked and never appends a
`quality_issue` signal.  A failed task is indeed never left pending, but
only because it is always silently completed. -/
theorem exec_never_blocks_no_quality (st : OrchState) (taskId : Nat)
    (outcome : BridgeOutcome) (task : Task) (agentId : String) (agent : Agent)
    (hfind : findTask st taskId = Option.some task)
    (hasg : task.assignedTo = Option.some agentId)
    (hagent : st.agents.find? (fun a => a.id == agentId) = Option.some agent) :
    (findTask (completeExec st taskId outcome) taskId).map Task.status =
      Option.some TaskStatus.completed ∧
    (completeExec st taskId outcome).signals.filter
        (fun s => s.type == SignalType.qualityIssue) =
      st.signals.filter (fun s => s.type == SignalType.qualityIssue) := by
  have hfind2 : st.tasks.find? (fun t => t.id == taskId) = Option.some task :=
    hfind
  have hid : (task.id == taskId) = true := by
    have h := List.find?_some hfind2
    simpa using h
  constructor
  · simp only [completeExec, hfind, hasg, hagent]
    split
    all_goals
      simp only [findTask]
      rw [find?_map_preserving_id _ _ (by intro t; split <;> rfl)]
      rw [show (st.tasks.find? fun t => t.id == taskId) = Option.some task
        from hfind]
      simp [show task.id = taskId from by simpa using hid]
  · simp only [completeExec, hfind, hasg, hagent]
    split
    · rw [List.filter_append]
      simp [decisionSignal]
    · rfl

/-- C1 witness for the amended theorem: a worker result with
`success = false` still ends completed with no quality signal. -/
theorem exec_never_blocks_no_quality_witness :
    (findTask (completeExec failSt 0 (BridgeOutcome.returns
        [("success", PyVal.bool false)])) 0).map Task.status =
      Option.some TaskStatus.completed ∧
    (completeExec failSt 0 (BridgeOutcome.returns
        [("success", PyVal.bool false)])).signals.filter
        (fun s => s.type == SignalType.qualityIssue) =
      failSt.signals.filter (fun s => s.type == SignalType.qualityIssue) :=
  exec_never_blocks_no_quality failSt 0
    (BridgeOutcome.returns [("success", PyVal.bool false)])
    failTask "ide_integrator" ideAgent rfl rfl rfl

/-- C1 counterexample: the bridge call for the integrator task raises,
the fallback chain covers no integrator simulation (so no usable output
exists), yet the task ends completed — not blocked — and the signal log
stays empty: no `quality_issue` signal is recorded. -/
theorem failed_task_completed_without_quality_signal :
    (findTask (completeExec failSt 0 BridgeOutcome.raises) 0).map Task.status =
      Option.some TaskStatus.completed ∧
    (findTask (completeExec failSt 0 BridgeOutcome.raises) 0).map Task.output =
      Option.some Option.none ∧
    (completeExec failSt 0 BridgeOutcome.raises).signals.length = 0 :=
  ⟨rfl, rfl, rfl⟩

/-- C5 counterexample: a successful worker result that merely mentions
the string `decisions_needed` inside a prose value — without declaring
any such field — still triggers a `decision_needed` signal, because the
engine tests `"decisions_needed" in str(task.output)`. -/
theorem decision_signal_without_declared_field :
    declaresDecisions (Option.some mentionOut) = false ∧
    ((completeExec mentionSt 0 (BridgeOutcome.returns mentionOut)).signals.filter
      (fun s => s.type == SignalType.decisionNeeded)).length = 1 :=
  ⟨rfl, rfl⟩

/-- A list is a prefix of itself followed by anything. -/
theorem leadsWith_self_append (n ys : List Char) :
    leadsWith n (n ++ ys) = true := by
  induction n with
  | nil => rfl
  | cons a as ih => simp [leadsWith, ih]

/-- Extending the scanned list preserves a successful prefix check. -/
theorem leadsWith_append_of (n : List Char) (l b : List Char)
    (h : leadsWith n l = true) : leadsWith n (l ++ b) = true := by
  induction n generalizing l with
  | nil => rfl
  | cons a as ih =>
    cases l with
    | nil => simp [leadsWith] at h
    | cons c cs =>
      simp only [leadsWith, Bool.and_eq_true] at h
      simp only [List.cons_append, leadsWith, Bool.and_eq_true]
      exact ⟨h.1, ih cs h.2⟩

/-- The empty pattern occurs in every list. -/
theorem occursIn_nil (b : List Char) : occursIn [] b = true := by
  cases b <;> simp [occursIn, leadsWith, List.isEmpty]

/-- Occurrence in the right part of an append is occurrence in the whole. -/
theorem occursIn_append_right (n xs ys : List Char)
    (h : occursIn n ys = true) : occursIn n (xs ++ ys) = true := by
  induction xs with
  | nil => simpa
  | cons c cs ih => simp [occursIn, ih]

/-- A pattern occurs at the head of itself followed by anything. -/
theorem occursIn_self_append (n ys : List Char) :
    occursIn n (n ++ ys) = true := by
  cases n with
  | nil => exact occursIn_nil ys
  | cons a as =>
    have h := leadsWith_self_append (a :: as) ys
    simp only [occursIn, Bool.or_eq_true]
    exact Or.inl h

/-- Occurrence in the left part of an append is occurrence in the whole. -/
theorem occursIn_append_left (n a b : List Char)
    (h : occursIn n a = true) : occursIn n (a ++ b) = true := by
  induction a with
  | nil =>
    simp only [occursIn, List.isEmpty_iff] at h
    subst h
    exact occursIn_nil b
  | cons c cs ih =>
    simp only [occursIn, Bool.or_eq_true] at h
    simp only [List.cons_append, occursIn, Bool.or_eq_true]
    rcases h with h | h
    · exact Or.inl (leadsWith_append_of n (c :: cs) b h)
    · exact Or.inr (ih h)

/-- A pattern wrapped between two lists occurs in the concatenation. -/
theorem occursIn_sandwich (xs n ys : List Char) :
    occursIn n (xs ++ (n ++ ys)) = true :=
  occursIn_append_right n xs (n ++ ys) (occursIn_self_append n ys)

/-- A declared dict key appears textually in the printed entry list. -/
theorem occurs_key_pyStrEntries (es : List (String × PyVal)) (key : String)
    (h : hasKey es key = true) :
    occursIn key.data (pyStrEntries es).data = true := by
  induction es with
  | nil => simp [hasKey] at h
  | cons e rest ih =>
    obtain ⟨k, v⟩ := e
    have h2 : (k == key) = true ∨ hasKey rest key = true := by
      simpa [hasKey, Bool.or_eq_true] using h
    cases rest with
    | nil =>
      have hk : k = key := by
        rcases h2 with hk | hr
        · exact by simpa using hk
        · simp [hasKey] at hr
      subst hk
      simp only [pyStrEntries, String.data_append, List.append_assoc]
      exact occursIn_sandwich _ _ _
    | cons e2 es2 =>
      rcases h2 with hk | hr
      · have hk2 : k = key := by simpa using hk
        subst hk2
        simp only [pyStrEntries, String.data_append, List.append_assoc]
        exact occursIn_sandwich _ _ _
      · have hocc := ih hr
        simp only [pyStrEntries, String.data_append, List.append_assoc]
        refine occursIn_append_right _ _ _ ?_
        refine occursIn_append_right _ _ _ ?_
        refine occursIn_append_right _ _ _ ?_
        refine occursIn_append_right _ _ _ ?_
        refine occursIn_append_right _ _ _ ?_
        exact occursIn_append_right _ _ _ hocc

/-- If a task output declares the `decisions_needed` field, the string
representation of the output mentions it, so the engine's substring
check fires. -/
theorem declares_implies_check (out : Option (List (String × PyVal)))
    (h : declaresDecisions out = true) : decisionCheck out = true := by
  cases out with
  | none => simp [declaresDecisions] at h
  | some es =>
    have hocc := occurs_key_pyStrEntries es "decisions_needed"
      (by simpa [declaresDecisions] using h)
    simp only [decisionCheck, strOfOutput, pyStr, strOccurs,
      String.data_append, List.append_assoc]
    refine occursIn_append_right _ _ _ ?_
    exact occursIn_append_left _ _ _ hocc

/-- C5 (amended): after a task completes, a `decision_needed` signal is
appended if and only if the string representation of the stored output
contains the substring `decisions_needed` — a textual-mention test, not
a field-presence test; the appended signal carries the task id and the
declared decision items (default `[]`).  Whenever the output does
declare the field the test fires, but it also fires on a mere mention of
the string, so field declaration is sufficient yet not necessary. -/
theorem decision_signal_iff_mention (st : OrchState) (taskId : Nat)
    (outcome : BridgeOutcome) (task : Task) (agentId : String) (agent : Agent)
    (hfind : findTask st taskId = Option.some task)
    (hasg : task.assignedTo = Option.some agentId)
    (hagent : st.agents.find? (fun a => a.id == agentId) = Option.some agent) :
    (completeExec st taskId outcome).signals =
      st.signals ++
        (if decisionCheck (resolveOutput agent.type task.description outcome)
         then [decisionSignal st.nextId task
                (resolveOutput agent.type task.description outcome)]
         else []) ∧
    (declaresDecisions (resolveOutput agent.type task.description outcome)
        = true →
      decisionCheck (resolveOutput agent.type task.description outcome)
        = true) := by
  constructor
  · by_cases hdc : decisionCheck
        (resolveOutput agent.type task.description outcome) = true
    · simp [completeExec, hfind, hasg, hagent, hdc]
    · simp [completeExec, hfind, hasg, hagent, hdc]
  · exact declares_implies_check _

/-- C5 witness for the amended theorem, at the concrete mention-only
state: the substring test fires and exactly the decision signal is
appended. -/
theorem decision_signal_iff_mention_witness :
    (completeExec mentionSt 0 (BridgeOutcome.returns mentionOut)).signals =
      mentionSt.signals ++
        (if decisionCheck (resolveOutput codexAgent.type
            mentionTask.description (BridgeOutcome.returns mentionOut))
         then [decisionSignal mentionSt.nextId mentionTask
                (resolveOutput codexAgent.type mentionTask.description
                  (BridgeOutcome.returns mentionOut))]
         else []) ∧
    (declaresDecisions (resolveOutput codexAgent.type mentionTask.description
        (BridgeOutcome.returns mentionOut)) = true →
      decisionCheck (resolveOutput codexAgent.type mentionTask.description
        (BridgeOutcome.returns mentionOut)) = true) :=
  decision_signal_iff_mention mentionSt 0 (BridgeOutcome.returns mentionOut)
    mentionTask "codex_impl" codexAgent rfl rfl rfl

/-- Assignment never touches the signal log. -/
theorem assignTask_signals (st : OrchState) (taskId : Nat) :
    (assignTask st taskId).signals = st.signals := by
  unfold assignTask
  cases findTask st taskId with
  | none => rfl
  | some task =>
    dsimp only
    split
    · cases findReadyAgent st.agents task.agentType <;> rfl
    · rfl

/-- A fold of signal-preserving operations preserves the signal log. -/
theorem foldl_signals_eq {α : Type} (f : OrchState → α → OrchState)
    (hf : ∀ s a, (f s a).signals = s.signals) :
    ∀ (l : List α) (s : OrchState), (l.foldl f s).signals = s.signals := by
  intro l
  induction l with
  | nil => intro s; rfl
  | cons x xs ih => intro s; rw [List.foldl_cons, ih, hf]

/-- Requirement processing only appends the requirement signal. -/
theorem processRequirement_signals_append (st : OrchState) (req : String)
    (p : Int) :
    ∃ tail, (processRequirement st req p).signals = st.signals ++ tail := by
  refine ⟨[{ id := st.nextId, type := SignalType.requirement, source := "user",
             data := [("content", PyVal.str req), ("priority", PyVal.int p)],
             confidence := 1 }], ?_⟩
  unfold processRequirement
  dsimp only
  rw [foldl_signals_eq
    (fun s t => assignTask
      { s with tasks := s.tasks ++ [t] } t.id)
    (fun s t => assignTask_signals { s with tasks := s.tasks ++ [t] } t.id)]

/-- The pending-task sweep never touches the signal log. -/
theorem checkPendingTasks_signals (st : OrchState) :
    (checkPendingTasks st).signals = st.signals := by
  unfold checkPendingTasks
  apply foldl_signals_eq
  intro s t
  cases h : findTask s t.id with
  | none => rfl
  | some cur =>
    dsimp only
    split
    · exact assignTask_signals s t.id
    · rfl

/-- Execution completion only appends (at most the decision signal). -/
theorem completeExec_signals_append (st : OrchState) (taskId : Nat)
    (outcome : BridgeOutcome) :
    ∃ tail, (completeExec st taskId outcome).signals = st.signals ++ tail := by
  unfold completeExec
  split
  · exact ⟨[], (List.append_nil _).symm⟩
  · split
    · exact ⟨[], (List.append_nil _).symm⟩
    · split
      · exact ⟨[], (List.append_nil _).symm⟩
      · dsimp only
        split
        · exact ⟨_, rfl⟩
        · exact ⟨[], (List.append_nil _).symm⟩

/-- Recording a decision leaves the signal log untouched. -/
theorem makeDecision_signals (st : OrchState) (sid : Nat) (d : String) :
    (makeDecision st sid d).2.signals = st.signals := by
  unfold makeDecision
  cases st.signals.find? (fun s => s.id == sid) <;> rfl

/-- Every engine step only appends to the signal log. -/
theorem step_signals_append (s s2 : OrchState) (h : Step s s2) :
    ∃ tail, s2.signals = s.signals ++ tail := by
  cases h with
  | processReq req p => exact processRequirement_signals_append s req p
  | assign tid =>
      exact ⟨[], by rw [assignTask_signals, List.append_nil]⟩
  | start tid => exact ⟨[], by rw [List.append_nil]; rfl⟩
  | complete tid oc => exact completeExec_signals_append s tid oc
  | checkPending =>
      exact ⟨[], by rw [checkPendingTasks_signals, List.append_nil]⟩
  | makeDec sid d =>
      exact ⟨[], by rw [makeDecision_signals, List.append_nil]⟩

/-- C9: the reported `pending_decisions` count is exactly the number of
`decision_needed` signals in the append-only signal log; a successful
`make_decision` neither removes nor marks the signal (the log is
untouched), and every engine step only appends to the log, so the count
is non-decreasing over a run. -/
theorem pending_decisions_monotone (st s s2 : OrchState) (sid : Nat)
    (d : String) (hstep : Step s s2) :
    (getProjectStatus st).pendingDecisions = countDecisionSignals st.signals ∧
    (makeDecision st sid d).2.signals = st.signals ∧
    ∃ tail, s2.signals = s.signals ++ tail ∧
      countDecisionSignals s.signals ≤ countDecisionSignals s2.signals := by
  refine ⟨rfl, makeDecision_signals st sid d, ?_⟩
  obtain ⟨tail, htail⟩ := step_signals_append s s2 hstep
  refine ⟨tail, htail, ?_⟩
  rw [htail]
  unfold countDecisionSignals
  rw [List.filter_append, List.length_append]
  exact Nat.le_add_right _ _

/-- C9 witness: a concrete assignment step on `c2St`. -/
theorem pending_decisions_monotone_witness :
    (getProjectStatus (initialState "p")).pendingDecisions =
      countDecisionSignals (initialState "p").signals ∧
    (makeDecision (initialState "p") 0 "go").2.signals =
      (initialState "p").signals ∧
    ∃ tail, (assignTask c2St 1).signals = c2St.signals ++ tail ∧
      countDecisionSignals c2St.signals ≤
        countDecisionSignals (assignTask c2St 1).signals :=
  pending_decisions_monotone (initialState "p") c2St (assignTask c2St 1)
    0 "go" (Step.assign c2St 1)

/-- C6 (code bug): the only payload `_execute_task` hands the bridge has
exactly the keys `id`, `description`, `priority`, `agent_type` — no
context key at all, so `bridge.execute_task` falls back to an empty
worker context (`task.get("context", {})`) and a validation task never
receives the implementer's artifact.  The `api_server` path that would
inject `implementer_result` is dead code: it selects a requirement's
tasks by testing whether the requirement's uuid occurs in the task
description, but descriptions embed the requirement text, never its id —
shown here on the concrete requirement of spec Scenario A and a uuid. -/
theorem context_injection_unreachable :
    (∀ (task : Task) (agent : Agent),
      (bridgePayload task agent).map Prod.fst =
        ["id", "description", "priority", "agent_type"] ∧
      dictGet (bridgePayload task agent) "context" (PyVal.dict []) =
        PyVal.dict []) ∧
    requirementTasks (decomposeFrom 0 "Build a simple hello world page")
      "f3b2c1d0-7e4a-4b9c-8d2e-a5f6b7c8d9e0" = [] := by
  refine ⟨fun task agent => ⟨rfl, rfl⟩, ?_⟩
  rfl

end Orchestrator
